import Mathlib

/-!
Shallow embedding of `src/ocl-addon/cl_top_host.c` (AWS F2 FPGA "Add-One"
host-side bring-up test).

The device-access layer (`fpga_pci_poke`, `fpga_pci_peek`, `fpga_pci_attach`,
`fpga_pci_detach`, `fpga_mgmt_describe_local_image`) is an external
collaborator; it is modelled as an oracle environment that supplies the
return code and (for peeks) the 32-bit value of the n-th register call of a
run.  The host program's observable behaviour is a trace of events
(register operations attempted, sleeps, and the key diagnostic reports) plus
the C `int` it returns.
-/

namespace CLTopHost

/-- Register addresses, `cl_top_host.c` lines 32-35. -/
def INPUT_BASE_ADDR : Nat := 0x00

def OUTPUT_BASE_ADDR : Nat := 0x20

def CONTROL_REG_ADDR : Nat := 0x40

def STATUS_REG_ADDR : Nat := 0x44

/-- Line 37: `#define START_BIT 0x00000001`. -/
def START_BIT : Nat := 0x00000001

/-- Line 38: `#define DONE_BIT 0x00000001`. -/
def DONE_BIT : Nat := 0x00000001

/-- Line 40: `#define NUM_REGISTERS 8`. -/
def NUM_REGISTERS : Nat := 8

/-- Line 162: `const int max_polls = 1000;`. -/
def max_polls : Nat := 1000

/-- Observable events of a run of `test_add_one_operation`:
attempted register calls (line numbers refer to `cl_top_host.c`),
the 1 ms sleep of the polling loop (`usleep(1000)`, line 235), and the
key diagnostic reports the program prints. -/
inductive Ev where
  /-- An attempted `fpga_pci_poke(handle, addr, v)`. -/
  | poke (addr v : Nat)
  /-- An attempted `fpga_pci_peek(handle, addr, &out)`. -/
  | peek (addr : Nat)
  /-- `usleep(1000)` — the fixed 1 ms poll quantum (line 235). -/
  | sleep
  /-- Line 204: "Input readback mismatch at reg {slot}: expected {e}, got {g}". -/
  | reportMismatch (slot expected got : Nat)
  /-- Line 249: "Timeout waiting for computation completion after {n} polls". -/
  | reportTimeout (attempts : Nat)
  /-- Lines 292-294: final summary, correct count and accuracy percentage. -/
  | reportSummary (correct pct : Nat)
  deriving DecidableEq, Repr

/-- Oracle for the register interface: `rc n` is the C return code of the
n-th register call of the run (0 = success), and `val n` is the 32-bit value
the device delivers if that call is a successful peek. -/
structure RegEnv where
  rc : Nat → Int
  val : Nat → Nat

/-- Line 169: `test_data[i] = 0x10000000 + i;` (step 1). -/
def test_data (i : Nat) : Nat := 0x10000000 + i

/-- Truncation of a device-supplied value to a `uint32_t`. -/
def mod32 (x : Nat) : Nat := x % 2 ^ 32

/-- Step 3 (lines 183-191): write `test_data[i]` to `INPUT_BASE_ADDR + i*4`
for `i` in ascending order; any poke failure returns its rc immediately.
`i` is the current loop index, the first argument of the recursion is the
number of remaining iterations, `k` the index of the next register call. -/
def writeInputs (env : RegEnv) : Nat → Nat → Nat → Except Int Nat × List Ev
  | 0, _, k => (.ok k, [])
  | n + 1, i, k =>
    let ev := Ev.poke (INPUT_BASE_ADDR + i * 4) (test_data i)
    if env.rc k ≠ 0 then (.error (env.rc k), [ev])
    else
      let (res, tr) := writeInputs env n (i + 1) (k + 1)
      (res, ev :: tr)

/-- Step 4 (lines 195-209): read back every input slot and compare with
`test_data[i]`; a peek failure returns its rc, a value mismatch prints the
mismatch report and returns 1. -/
def verifyInputs (env : RegEnv) : Nat → Nat → Nat → Except Int Nat × List Ev
  | 0, _, k => (.ok k, [])
  | n + 1, i, k =>
    let ev := Ev.peek (INPUT_BASE_ADDR + i * 4)
    if env.rc k ≠ 0 then (.error (env.rc k), [ev])
    else
      let read_data := mod32 (env.val k)
      if read_data ≠ test_data i then
        (.error 1, [ev, Ev.reportMismatch i (test_data i) read_data])
      else
        let (res, tr) := verifyInputs env n (i + 1) (k + 1)
        (res, ev :: tr)

/-- Step 7, the polling loop (lines 231-246):
`while (!(status & DONE_BIT) && poll_count < max_polls) { usleep(1000);
peek(STATUS); poll_count++; }`.  The first argument is the remaining
attempt budget (`max_polls - poll_count`), so the fuel-0 case is exactly
the `poll_count < max_polls` exit; `status` is the last observed status
word, `pc` the poll count, `k` the next register-call index.  On normal
exit it returns the final `(poll_count, k)` (the final status word is not
used by the code after the loop). -/
def pollLoop (env : RegEnv) : Nat → Nat → Nat → Nat → Except Int (Nat × Nat) × List Ev
  | 0, _, pc, k => (.ok (pc, k), [])
  | fuel + 1, status, pc, k =>
    if status &&& DONE_BIT = 0 then
      if env.rc k ≠ 0 then (.error (env.rc k), [Ev.sleep, Ev.peek STATUS_REG_ADDR])
      else
        let status' := mod32 (env.val k)
        let (res, tr) := pollLoop env fuel status' (pc + 1) (k + 1)
        (res, Ev.sleep :: Ev.peek STATUS_REG_ADDR :: tr)
    else (.ok (pc, k), [])

/-- Step 9 (lines 265-273): read the `NUM_REGISTERS` output slots in
ascending order, collecting the values; a peek failure returns its rc. -/
def readOutputs (env : RegEnv) : Nat → Nat → Nat → Except Int (List Nat) × List Ev
  | 0, _, _ => (.ok [], [])
  | n + 1, i, k =>
    let ev := Ev.peek (OUTPUT_BASE_ADDR + i * 4)
    if env.rc k ≠ 0 then (.error (env.rc k), [ev])
    else
      let v := mod32 (env.val k)
      match readOutputs env n (i + 1) (k + 1) with
      | (.ok vs, tr) => (.ok (v :: vs), ev :: tr)
      | (.error r, tr) => (.error r, ev :: tr)

/-- Line 283: `uint32_t expected = test_data[i] + 1;` — wrapping 32-bit
addition. -/
def expected32 (x : Nat) : Nat := mod32 (x + 1)

/-- Step 10 loop (lines 281-290): count the slots `i < n` whose output
equals the expected value. -/
def countCorrect (inputs outputs : Nat → Nat) : Nat → Nat
  | 0 => 0
  | n + 1 =>
    countCorrect inputs outputs n + if outputs n = expected32 (inputs n) then 1 else 0

/-- Line 294: `(correct_count * 100) / NUM_REGISTERS` — C truncating
integer division on non-negative operands. -/
def accuracy (correct : Nat) : Nat := correct * 100 / NUM_REGISTERS

/-- Step 10 (lines 281-302): produce `(correct_count, accuracy, rc)` where
`rc` is 0 iff all `NUM_REGISTERS` slots are correct, else 1. -/
def verifyResults (inputs outputs : Nat → Nat) : Nat × Nat × Int :=
  let cc := countCorrect inputs outputs NUM_REGISTERS
  (cc, accuracy cc, if cc = NUM_REGISTERS then 0 else 1)

/-- Steps 8-10 (lines 255-302), entered once polling has completed within
budget: clear the start bit, read the outputs, verify.  `k` is the next
register-call index. -/
def stepsAfterPoll (env : RegEnv) (k : Nat) : Int × List Ev :=
  -- Step 8 (line 257): clear start bit
  let ev8 := Ev.poke CONTROL_REG_ADDR 0
  if env.rc k ≠ 0 then (env.rc k, [ev8])
  else
    -- Step 9 (lines 265-273)
    match readOutputs env NUM_REGISTERS 0 (k + 1) with
    | (.error r, tr9) => (r, ev8 :: tr9)
    | (.ok outs, tr9) =>
      -- Step 10 (lines 281-302)
      let (cc, pct, rc) := verifyResults test_data (fun i => outs.getD i 0)
      (rc, ev8 :: tr9 ++ [Ev.reportSummary cc pct])

/-- `test_add_one_operation` (lines 156-303).  Register calls are numbered
in program order: call 0 is the step-2 control clear, calls 1-8 the input
writes, calls 9-16 the readback peeks, call 17 the initial status read,
call 18 the start poke, calls 19,20,… the polling status reads, then the
step-8 clear and the eight output reads. -/
def test_add_one_operation (env : RegEnv) : Int × List Ev :=
  -- Step 2 (line 175): clear control register
  let ev2 := Ev.poke CONTROL_REG_ADDR 0
  if env.rc 0 ≠ 0 then (env.rc 0, [ev2])
  else
    -- Step 3 (lines 183-191)
    match writeInputs env NUM_REGISTERS 0 1 with
    | (.error r, tr3) => (r, ev2 :: tr3)
    | (.ok k3, tr3) =>
      -- Step 4 (lines 195-209)
      match verifyInputs env NUM_REGISTERS 0 k3 with
      | (.error r, tr4) => (r, ev2 :: (tr3 ++ tr4))
      | (.ok k4, tr4) =>
        -- Step 5 (line 213): read initial status (value printed, then
        -- `status` is reset to 0 at line 232 before the loop)
        let ev5 := Ev.peek STATUS_REG_ADDR
        if env.rc k4 ≠ 0 then (env.rc k4, ev2 :: (tr3 ++ tr4 ++ [ev5]))
        else
          -- Step 6 (line 222): write START_BIT to the control register
          let ev6 := Ev.poke CONTROL_REG_ADDR START_BIT
          if env.rc (k4 + 1) ≠ 0 then
            (env.rc (k4 + 1), ev2 :: (tr3 ++ tr4 ++ [ev5, ev6]))
          else
            -- Step 7 (lines 231-251)
            match pollLoop env max_polls 0 0 (k4 + 2) with
            | (.error r, tr7) => (r, ev2 :: (tr3 ++ tr4 ++ [ev5, ev6] ++ tr7))
            | (.ok (pc, k7), tr7) =>
              if pc ≥ max_polls then
                -- lines 248-251: timeout check
                (1, ev2 :: (tr3 ++ tr4 ++ [ev5, ev6] ++ tr7 ++ [Ev.reportTimeout pc]))
              else
                let (r, tr8) := stepsAfterPoll env k7
                (r, ev2 :: (tr3 ++ tr4 ++ [ev5, ev6] ++ tr7 ++ tr8))

/-! ## Session layer: `peek_poke_example` (lines 120-154) -/

/-- Oracle for one run of `peek_poke_example`: the outcome of the
`fpga_pci_attach` call (its rc and the BAR handle it stores on success —
the handle starts at `PCI_BAR_HANDLE_INIT = -1` and a successful attach
stores a valid non-negative handle, which the cleanup guard
`pci_bar_handle >= 0` tests), the rc of `fpga_pci_detach` if invoked, and
the register environment seen by `test_add_one_operation`. -/
structure Sys where
  attachRc : Int
  attachHandle : Int
  detachRc : Int
  regs : RegEnv

/-- `peek_poke_example` (lines 120-154).  Returns the C `int` result and
the number of `fpga_pci_detach` calls performed.  Note the cleanup block
(lines 142-151): when the handle is valid, `rc = fpga_pci_detach(...)`
overwrites the rc of the command cycle before `return rc`. -/
def peek_poke_example (sys : Sys) : Int × Nat :=
  -- lines 127-131: attach; on failure return its rc before cleanup
  if sys.attachRc ≠ 0 then (sys.attachRc, 0)
  else
    -- line 136: run the command cycle; rc ≠ 0 prints an error and
    -- `goto cleanup`, rc = 0 falls through to cleanup as well
    let rc := (test_add_one_operation sys.regs).1
    -- lines 142-151: cleanup
    if sys.attachHandle ≥ 0 then
      -- line 145: rc is OVERWRITTEN with the detach result
      (sys.detachRc, 1)
    else (rc, 0)

/-! ## Readiness check: `check_afi_ready` (lines 92-118) -/

/-- AFI image status as reported by `fpga_mgmt_describe_local_image`
(the `FPGA_STATUS_*` enum values compared at lines 106-112; `unknown`
stands for any other value). -/
inductive FpgaStatus where
  | notProgrammed
  | cleared
  | loaded
  | busy
  | unknown
  deriving DecidableEq, Repr

/-- The status string printed at lines 108-112 (nested conditionals). -/
def statusName : FpgaStatus → String
  | .notProgrammed => "NOT_PROGRAMMED"
  | .cleared => "CLEARED"
  | .loaded => "LOADED"
  | .busy => "BUSY"
  | .unknown => "UNKNOWN"

/-- Oracle for the single `fpga_mgmt_describe_local_image` call of
`check_afi_ready`: its rc and, on success, the image status it reports. -/
structure AfiQuery where
  describeRc : Int
  status : FpgaStatus

/-- `check_afi_ready` (lines 92-118).  Returns the C `int` result and the
status string reported when the image is not LOADED (`none` when nothing
is reported).  `fpga_mgmt_describe_local_image` is called exactly once, at
function entry (line 97) — there is no retry. -/
def check_afi_ready (q : AfiQuery) : Int × Option String :=
  -- lines 97-101: describe; on failure return its rc
  if q.describeRc ≠ 0 then (q.describeRc, none)
  -- lines 106-114: any status other than LOADED is reported and returns 1
  else if q.status ≠ FpgaStatus.loaded then (1, some (statusName q.status))
  -- lines 116-117
  else (0, none)

/-! ## Process entry point: `main` (lines 52-90) -/

/-- Oracle for one run of `main`: the rc of `fpga_mgmt_init`, the
readiness query, and the session/register environment. -/
structure MainSys where
  mgmtInitRc : Int
  afi : AfiQuery
  sys : Sys

/-- `main` (lines 52-90): init the management library (failure exits 1),
check readiness (failure goes to cleanup, returning its rc), then run
`peek_poke_example` (its rc is returned through cleanup either way). -/
def main (m : MainSys) : Int :=
  -- lines 61-65
  if m.mgmtInitRc ≠ 0 then 1
  else
    -- lines 70-74: goto cleanup, return rc
    let rc := (check_afi_ready m.afi).1
    if rc ≠ 0 then rc
    else
      -- lines 79-89: rc ≠ 0 goes to cleanup, rc = 0 falls through; both
      -- return rc
      (peek_poke_example m.sys).1

/-! ## Trace shapes and trace predicates -/

/-- The event trace of `n` successful input writes starting at slot `i`. -/
def inputPokeTrace : Nat → Nat → List Ev
  | 0, _ => []
  | n + 1, i => Ev.poke (INPUT_BASE_ADDR + i * 4) (test_data i) :: inputPokeTrace n (i + 1)

/-- The event trace of `n` successful, matching input readbacks starting at
slot `i`. -/
def inputPeekTrace : Nat → Nat → List Ev
  | 0, _ => []
  | n + 1, i => Ev.peek (INPUT_BASE_ADDR + i * 4) :: inputPeekTrace n (i + 1)

/-- The event trace of `n` successful output reads starting at slot `i`. -/
def outputPeekTrace : Nat → Nat → List Ev
  | 0, _ => []
  | n + 1, i => Ev.peek (OUTPUT_BASE_ADDR + i * 4) :: outputPeekTrace n (i + 1)

/-- The event trace of `n` polling iterations that run to the status read:
each status read is preceded by the 1 ms sleep. -/
def pollTrace : Nat → List Ev
  | 0 => []
  | n + 1 => Ev.sleep :: Ev.peek STATUS_REG_ADDR :: pollTrace n

/-- Trace of steps 2-4 when they all succeed: control clear, the eight
input writes, the eight matching readbacks. -/
def verifiedPrefixTrace : List Ev :=
  Ev.poke CONTROL_REG_ADDR 0 ::
    (inputPokeTrace NUM_REGISTERS 0 ++ inputPeekTrace NUM_REGISTERS 0)

/-- Trace of steps 2-6 when they all succeed: `verifiedPrefixTrace`, the
initial status read, the start poke. -/
def startedPrefixTrace : List Ev :=
  verifiedPrefixTrace ++ [Ev.peek STATUS_REG_ADDR, Ev.poke CONTROL_REG_ADDR START_BIT]

/-- Does the trace contain a write of `START_BIT` to the Control register? -/
def hasStartPoke : List Ev → Bool
  | [] => false
  | Ev.poke addr v :: t => (addr == CONTROL_REG_ADDR && v == START_BIT) || hasStartPoke t
  | _ :: t => hasStartPoke t

/-- Does the trace contain a sleep (i.e. did the polling loop run at all)? -/
def hasSleep : List Ev → Bool
  | [] => false
  | Ev.sleep :: _ => true
  | _ :: t => hasSleep t

/-- The status read of polling attempt `j` (1-based) is register call
`19 + (j-1)` of a run whose steps 2-6 all succeeded.  `firstDoneAt env k`
says that in environment `env` that read is the first whose value has the
done bit set. -/
def firstDoneAt (env : RegEnv) (k : Nat) : Bool :=
  decide ((mod32 (env.val (19 + (k - 1)))) &&& DONE_BIT ≠ 0) &&
    (List.range (k - 1)).all fun j => (mod32 (env.val (19 + j))) &&& DONE_BIT == 0

/-! ## Concrete register environments used as test vectors -/

/-- Register-call numbering of a run that reaches the output reads:
call 0 = step-2 clear, 1-8 = input writes, 9-16 = input readbacks,
17 = initial status read, 18 = start poke, 19,… = polling status reads;
if polling completes after `p` reads, call `19+p` = step-8 clear and calls
`20+p`-`27+p` = output reads. -/
def devGoodVal (outputOf : Nat → Nat) : Nat → Nat := fun n =>
  if 9 ≤ n ∧ n < 17 then test_data (n - 9)
  else if n = 19 then 1
  else if 21 ≤ n ∧ n < 29 then outputOf (n - 21)
  else 0

/-- A fully healthy device: every call succeeds, readbacks echo the
written data, the done bit is set on the first polling read, and every
output slot holds `input + 1`. -/
def envGood : RegEnv :=
  ⟨fun _ => 0, devGoodVal (fun i => expected32 (test_data i))⟩

/-- Like `envGood` except output slot 3 holds the un-incremented input
(the spec's "simulated accelerator returns output[3] = input[3]"). -/
def envSlot3 : RegEnv :=
  ⟨fun _ => 0,
   devGoodVal (fun i => if i = 3 then test_data 3 else expected32 (test_data i))⟩

/-- Every call succeeds, readbacks echo the written data, but the status
register never sets the done bit. -/
def envTimeout : RegEnv :=
  ⟨fun _ => 0, fun n => if 9 ≤ n ∧ n < 17 then test_data (n - 9) else 0⟩

/-- Every call succeeds, readbacks echo the written data, and the done bit
is first observed on polling read number 1000 (register call `19 + 999`). -/
def env1000 : RegEnv :=
  ⟨fun _ => 0,
   fun n => if n = 1018 then 1 else if 9 ≤ n ∧ n < 17 then test_data (n - 9) else 0⟩

/-- Every call succeeds, readbacks echo the written data except slot 5,
whose readback returns `0xdeadbeef`. -/
def envBadSlot5 : RegEnv :=
  ⟨fun _ => 0,
   fun n => if n = 14 then 0xdeadbeef
            else if 9 ≤ n ∧ n < 17 then test_data (n - 9) else 0⟩

/-- Attach succeeds with handle 0, detach succeeds, device is `envSlot3`
(output slot 3 wrong). -/
def sysSlot3 : Sys := ⟨0, 0, 0, envSlot3⟩

/-- Attach succeeds with handle 0, detach succeeds, device healthy. -/
def sysGood : Sys := ⟨0, 0, 0, envGood⟩

/-- Full-process environment: management init OK, AFI loaded, attach and
detach succeed, output slot 3 wrong. -/
def mainSysSlot3 : MainSys := ⟨0, ⟨0, .loaded⟩, sysSlot3⟩

/-- Attach succeeds with handle 0, device healthy, but detach fails with
rc 5. -/
def sysDetachFail : Sys := ⟨0, 0, 5, envGood⟩

/-- Attach fails with rc 1 (the handle keeps its `PCI_BAR_HANDLE_INIT = -1`
initial value). -/
def sysAttachFail : Sys := ⟨1, -1, 0, envGood⟩

/-! ## Unfolding lemmas for the loops -/

theorem writeInputs_ok (env : RegEnv) :
    ∀ n i k, (∀ j < n, env.rc (k + j) = 0) →
      writeInputs env n i k = (.ok (k + n), inputPokeTrace n i) := by
  intro n
  induction n with
  | zero => intro i k _; simp [writeInputs, inputPokeTrace]
  | succ n ih =>
    intro i k h
    have h0 : env.rc k = 0 := by simpa using h 0 (Nat.succ_pos n)
    have hrest : ∀ j < n, env.rc (k + 1 + j) = 0 := by
      intro j hj
      have := h (j + 1) (by omega)
      simpa [Nat.add_assoc, Nat.add_comm 1 j] using this
    simp [writeInputs, h0, ih (i + 1) (k + 1) hrest, inputPokeTrace]
    omega

theorem verifyInputs_ok (env : RegEnv) :
    ∀ n i k, (∀ j < n, env.rc (k + j) = 0) →
      (∀ j < n, mod32 (env.val (k + j)) = test_data (i + j)) →
      verifyInputs env n i k = (.ok (k + n), inputPeekTrace n i) := by
  intro n
  induction n with
  | zero => intro i k _ _; simp [verifyInputs, inputPeekTrace]
  | succ n ih =>
    intro i k hrc hval
    have h0 : env.rc k = 0 := by simpa using hrc 0 (Nat.succ_pos n)
    have hv0 : mod32 (env.val k) = test_data i := by simpa using hval 0 (Nat.succ_pos n)
    have hrc' : ∀ j < n, env.rc (k + 1 + j) = 0 := by
      intro j hj
      simpa [Nat.add_assoc, Nat.add_comm 1 j] using hrc (j + 1) (by omega)
    have hval' : ∀ j < n, mod32 (env.val (k + 1 + j)) = test_data (i + 1 + j) := by
      intro j hj
      have := hval (j + 1) (by omega)
      simpa [Nat.add_assoc, Nat.add_comm 1 j] using this
    simp [verifyInputs, h0, hv0, ih (i + 1) (k + 1) hrc' hval', inputPeekTrace]
    omega

theorem verifyInputs_mismatch (env : RegEnv) :
    ∀ j n i k, j < n → (∀ m ≤ j, env.rc (k + m) = 0) →
      (∀ m < j, mod32 (env.val (k + m)) = test_data (i + m)) →
      mod32 (env.val (k + j)) ≠ test_data (i + j) →
      verifyInputs env n i k =
        (.error 1,
         inputPeekTrace (j + 1) i ++
           [Ev.reportMismatch (i + j) (test_data (i + j)) (mod32 (env.val (k + j)))]) := by
  intro j
  induction j with
  | zero =>
    intro n i k hn hrc _ hbad
    obtain ⟨n', rfl⟩ : ∃ n', n = n' + 1 := ⟨n - 1, by omega⟩
    have h0 : env.rc k = 0 := by simpa using hrc 0 (Nat.le_refl 0)
    have hb : mod32 (env.val k) ≠ test_data i := by simpa using hbad
    simp [verifyInputs, h0, hb, inputPeekTrace]
  | succ j ih =>
    intro n i k hn hrc hval hbad
    obtain ⟨n', rfl⟩ : ∃ n', n = n' + 1 := ⟨n - 1, by omega⟩
    have h0 : env.rc k = 0 := hrc 0 (Nat.zero_le _)
    have hv0 : mod32 (env.val k) = test_data i := by simpa using hval 0 (Nat.succ_pos j)
    have hrc' : ∀ m ≤ j, env.rc (k + 1 + m) = 0 := by
      intro m hm
      simpa [Nat.add_assoc, Nat.add_comm 1 m] using hrc (m + 1) (by omega)
    have hval' : ∀ m < j, mod32 (env.val (k + 1 + m)) = test_data (i + 1 + m) := by
      intro m hm
      simpa [Nat.add_assoc, Nat.add_comm 1 m] using hval (m + 1) (by omega)
    have hbad' : mod32 (env.val (k + 1 + j)) ≠ test_data (i + 1 + j) := by
      have e1 : k + 1 + j = k + (j + 1) := by omega
      have e2 : i + 1 + j = i + (j + 1) := by omega
      rw [e1, e2]; exact hbad
    have := ih n' (i + 1) (k + 1) (by omega) hrc' hval' hbad'
    have e1 : k + 1 + j = k + (j + 1) := by omega
    have e2 : i + 1 + j = i + (j + 1) := by omega
    rw [e1, e2] at this
    simp [verifyInputs, h0, hv0, this, inputPeekTrace]

theorem pollLoop_zeros (env : RegEnv) :
    ∀ fuel status pc k, status &&& DONE_BIT = 0 →
      (∀ j < fuel, env.rc (k + j) = 0) →
      (∀ j < fuel, mod32 (env.val (k + j)) &&& DONE_BIT = 0) →
      pollLoop env fuel status pc k = (.ok (pc + fuel, k + fuel), pollTrace fuel) := by
  intro fuel
  induction fuel with
  | zero => intro status pc k _ _ _; simp [pollLoop, pollTrace]
  | succ fuel ih =>
    intro status pc k hst hrc hval
    have h0 : env.rc k = 0 := hrc 0 (Nat.succ_pos fuel)
    have hv0 : mod32 (env.val k) &&& DONE_BIT = 0 := hval 0 (Nat.succ_pos fuel)
    have hrc' : ∀ j < fuel, env.rc (k + 1 + j) = 0 := by
      intro j hj
      simpa [Nat.add_assoc, Nat.add_comm 1 j] using hrc (j + 1) (by omega)
    have hval' : ∀ j < fuel, mod32 (env.val (k + 1 + j)) &&& DONE_BIT = 0 := by
      intro j hj
      simpa [Nat.add_assoc, Nat.add_comm 1 j] using hval (j + 1) (by omega)
    simp [pollLoop, hst, h0, ih _ (pc + 1) (k + 1) hv0 hrc' hval', pollTrace]
    omega

/-- When the last observed status already has the done bit, the loop
guard fails at once and the loop exits with the current counters. -/
theorem pollLoop_exit (env : RegEnv) (fuel status pc k : Nat)
    (h : status &&& DONE_BIT ≠ 0) :
    pollLoop env fuel status pc k = (.ok (pc, k), []) := by
  cases fuel <;> simp [pollLoop, h]

theorem pollLoop_done (env : RegEnv) :
    ∀ m fuel status pc k, m < fuel → status &&& DONE_BIT = 0 →
      (∀ j ≤ m, env.rc (k + j) = 0) →
      (∀ j < m, mod32 (env.val (k + j)) &&& DONE_BIT = 0) →
      mod32 (env.val (k + m)) &&& DONE_BIT ≠ 0 →
      pollLoop env fuel status pc k = (.ok (pc + m + 1, k + m + 1), pollTrace (m + 1)) := by
  intro m
  induction m with
  | zero =>
    intro fuel status pc k hm hst hrc _ hdone
    obtain ⟨f', rfl⟩ : ∃ f', fuel = f' + 1 := ⟨fuel - 1, by omega⟩
    have h0 : env.rc k = 0 := hrc 0 (Nat.le_refl 0)
    have hd : mod32 (env.val k) &&& DONE_BIT ≠ 0 := by simpa using hdone
    simp [pollLoop, hst, h0, pollLoop_exit env f' _ _ _ hd, pollTrace]
  | succ m ih =>
    intro fuel status pc k hm hst hrc hval hdone
    obtain ⟨f', rfl⟩ : ∃ f', fuel = f' + 1 := ⟨fuel - 1, by omega⟩
    have h0 : env.rc k = 0 := hrc 0 (Nat.zero_le _)
    have hv0 : mod32 (env.val k) &&& DONE_BIT = 0 := hval 0 (Nat.succ_pos m)
    have hrc' : ∀ j ≤ m, env.rc (k + 1 + j) = 0 := by
      intro j hj
      simpa [Nat.add_assoc, Nat.add_comm 1 j] using hrc (j + 1) (by omega)
    have hval' : ∀ j < m, mod32 (env.val (k + 1 + j)) &&& DONE_BIT = 0 := by
      intro j hj
      simpa [Nat.add_assoc, Nat.add_comm 1 j] using hval (j + 1) (by omega)
    have hdone' : mod32 (env.val (k + 1 + m)) &&& DONE_BIT ≠ 0 := by
      have e : k + 1 + m = k + (m + 1) := by omega
      rw [e]; exact hdone
    have hrec := ih f' (mod32 (env.val k)) (pc + 1) (k + 1) (by omega) hv0 hrc' hval' hdone'
    simp [pollLoop, hst, h0, hrec, pollTrace]
    omega

/-- When steps 2-6 all succeed (register calls 0-18 return 0 and the
readbacks echo the written data), the command cycle is the polling loop
started at register call 19 followed by the timeout check and, within
budget, steps 8-10. -/
theorem cycle_started (env : RegEnv)
    (hrc : ∀ m < 19, env.rc m = 0)
    (hrb : ∀ i < NUM_REGISTERS, mod32 (env.val (9 + i)) = test_data i) :
    test_add_one_operation env =
      (match pollLoop env max_polls 0 0 19 with
       | (.error r, tr7) => (r, startedPrefixTrace ++ tr7)
       | (.ok (pc, k7), tr7) =>
         if pc ≥ max_polls then
           (1, startedPrefixTrace ++ tr7 ++ [Ev.reportTimeout pc])
         else
           let (r, tr8) := stepsAfterPoll env k7
           (r, startedPrefixTrace ++ tr7 ++ tr8)) := by
  have h0 : env.rc 0 = 0 := hrc 0 (by omega)
  have h3 : writeInputs env NUM_REGISTERS 0 1 = (.ok 9, inputPokeTrace NUM_REGISTERS 0) := by
    have := writeInputs_ok env NUM_REGISTERS 0 1
      (fun j hj => hrc (1 + j) (by simp [NUM_REGISTERS] at hj; omega))
    simpa using this
  have h4 : verifyInputs env NUM_REGISTERS 0 9 = (.ok 17, inputPeekTrace NUM_REGISTERS 0) := by
    have := verifyInputs_ok env NUM_REGISTERS 0 9
      (fun j hj => hrc (9 + j) (by simp [NUM_REGISTERS] at hj; omega))
      (fun j hj => by simpa using hrb j hj)
    simpa using this
  have h17 : env.rc 17 = 0 := hrc 17 (by omega)
  have h18 : env.rc 18 = 0 := hrc 18 (by omega)
  rcases hp : pollLoop env max_polls 0 0 19 with ⟨res, tr7⟩
  rcases res with r | ⟨pc, k7⟩
  · simp [test_add_one_operation, h0, h3, h4, h17, h18, hp,
      startedPrefixTrace, verifiedPrefixTrace]
  · by_cases hpc : pc ≥ max_polls
    · simp [test_add_one_operation, h0, h3, h4, h17, h18, hp, hpc,
        startedPrefixTrace, verifiedPrefixTrace]
    · rcases h8 : stepsAfterPoll env k7 with ⟨r8, tr8⟩
      simp [test_add_one_operation, h0, h3, h4, h17, h18, hp, hpc, h8,
        startedPrefixTrace, verifiedPrefixTrace]

/-! ## Absence lemmas for trace predicates -/

theorem hasStartPoke_append (a b : List Ev) :
    hasStartPoke (a ++ b) = (hasStartPoke a || hasStartPoke b) := by
  induction a with
  | nil => simp [hasStartPoke]
  | cons e t ih => cases e <;> simp [hasStartPoke, ih, Bool.or_assoc]

theorem hasSleep_append (a b : List Ev) :
    hasSleep (a ++ b) = (hasSleep a || hasSleep b) := by
  induction a with
  | nil => simp [hasSleep]
  | cons e t ih => cases e <;> simp [hasSleep, ih]

theorem hasStartPoke_inputPokeTrace : ∀ n i, hasStartPoke (inputPokeTrace n i) = false := by
  intro n
  induction n with
  | zero => intro i; rfl
  | succ n ih =>
    intro i
    have hv : (test_data i == START_BIT) = false := by
      simp [test_data, START_BIT]
      omega
    simp [inputPokeTrace, hasStartPoke, hv]
    exact ih (i + 1)

theorem hasStartPoke_inputPeekTrace : ∀ n i, hasStartPoke (inputPeekTrace n i) = false := by
  intro n
  induction n with
  | zero => intro i; rfl
  | succ n ih =>
    intro i
    simpa [inputPeekTrace, hasStartPoke] using ih (i + 1)

theorem hasSleep_inputPokeTrace : ∀ n i, hasSleep (inputPokeTrace n i) = false := by
  intro n
  induction n with
  | zero => intro i; rfl
  | succ n ih =>
    intro i
    simpa [inputPokeTrace, hasSleep] using ih (i + 1)

theorem hasSleep_inputPeekTrace : ∀ n i, hasSleep (inputPeekTrace n i) = false := by
  intro n
  induction n with
  | zero => intro i; rfl
  | succ n ih =>
    intro i
    simpa [inputPeekTrace, hasSleep] using ih (i + 1)

/-- C6: a readback mismatch at slot `j` (all earlier register calls
succeeding and all earlier readbacks matching) makes the cycle fail with
rc 1, report the mismatch for that slot, and never write the start bit to
the Control register nor enter the polling loop. -/
theorem input_readback_mismatch_aborts (env : RegEnv) (j : Nat)
    (hj : j < NUM_REGISTERS)
    (hrc : ∀ m ≤ 9 + j, env.rc m = 0)
    (hgood : ∀ i < j, mod32 (env.val (9 + i)) = test_data i)
    (hbad : mod32 (env.val (9 + j)) ≠ test_data j) :
    (test_add_one_operation env).1 = 1 ∧
    Ev.reportMismatch j (test_data j) (mod32 (env.val (9 + j))) ∈
      (test_add_one_operation env).2 ∧
    hasStartPoke (test_add_one_operation env).2 = false ∧
    hasSleep (test_add_one_operation env).2 = false := by
  have h0 : env.rc 0 = 0 := hrc 0 (by omega)
  have h3 : writeInputs env NUM_REGISTERS 0 1 = (.ok 9, inputPokeTrace NUM_REGISTERS 0) := by
    have := writeInputs_ok env NUM_REGISTERS 0 1
      (fun m hm => hrc (1 + m) (by simp [NUM_REGISTERS] at hm; omega))
    simpa using this
  have h4 := verifyInputs_mismatch env j NUM_REGISTERS 0 9 hj
      (fun m hm => hrc (9 + m) (by omega))
      (fun m hm => by simpa using hgood m hm)
      (by simpa using hbad)
  simp only [Nat.zero_add] at h4
  have hcalc : test_add_one_operation env =
      (1, Ev.poke CONTROL_REG_ADDR 0 ::
          (inputPokeTrace NUM_REGISTERS 0 ++
            (inputPeekTrace (j + 1) 0 ++
              [Ev.reportMismatch j (test_data j) (mod32 (env.val (9 + j)))]))) := by
    simp [test_add_one_operation, h0, h3, h4]
  rw [hcalc]
  refine ⟨rfl, by simp, ?_, ?_⟩
  · simp [hasStartPoke, hasStartPoke_append, hasStartPoke_inputPokeTrace,
      hasStartPoke_inputPeekTrace, CONTROL_REG_ADDR, START_BIT]
    decide
  · simp [hasSleep, hasSleep_append, hasSleep_inputPokeTrace,
      hasSleep_inputPeekTrace]

/-- Witness for `input_readback_mismatch_aborts` at `envBadSlot5`. -/
theorem input_readback_mismatch_aborts_witness :
    (test_add_one_operation envBadSlot5).1 = 1 ∧
    hasStartPoke (test_add_one_operation envBadSlot5).2 = false := by
  have h := input_readback_mismatch_aborts envBadSlot5 5 (by decide)
    (fun m _ => rfl) (by decide) (by decide)
  exact ⟨h.1, h.2.2.1⟩

/-- C4: when every register call succeeds, the readbacks echo the data,
and no polling status read ever has the done bit set, the run is the
steps-2-6 prefix, then exactly `max_polls` sleep-then-status-read
iterations, then the timeout report with `attempts = max_polls` and
rc 1 — steps 8-10 are never reached. -/
theorem poll_never_done_times_out (env : RegEnv)
    (hrc : ∀ m, env.rc m = 0)
    (hrb : ∀ i < NUM_REGISTERS, mod32 (env.val (9 + i)) = test_data i)
    (hnever : ∀ j < max_polls, mod32 (env.val (19 + j)) &&& DONE_BIT = 0) :
    test_add_one_operation env =
      (1, startedPrefixTrace ++ pollTrace max_polls ++ [Ev.reportTimeout max_polls]) := by
  have hp : pollLoop env max_polls 0 0 19 =
      (.ok (0 + max_polls, 19 + max_polls), pollTrace max_polls) :=
    pollLoop_zeros env max_polls 0 0 19 (by decide)
      (fun j _ => hrc (19 + j)) (fun j hj => hnever j hj)
  rw [cycle_started env (fun m _ => hrc m) hrb, hp]
  simp [max_polls]

/-- Witness for `poll_never_done_times_out` at `envTimeout`. -/
theorem poll_never_done_times_out_witness :
    test_add_one_operation envTimeout =
      (1, startedPrefixTrace ++ pollTrace max_polls ++ [Ev.reportTimeout max_polls]) := by
  apply poll_never_done_times_out
  · intro m; rfl
  · decide
  · intro j hj
    have h : ¬(9 ≤ 19 + j ∧ 19 + j < 17) := by omega
    simp [envTimeout, mod32, h, DONE_BIT]

set_option maxRecDepth 8000 in
/-- C3 (failing at `k = 1000`): with every register call succeeding and
the done bit first observed on polling read 1000 — the last read within
the budget — the post-loop check `poll_count >= max_polls` still fires:
the cycle prints the timeout report and returns 1 instead of proceeding
to clear the control register and read the outputs. -/
theorem done_on_poll_1000_still_times_out :
    firstDoneAt env1000 1000 = true ∧
    test_add_one_operation env1000 =
      (1, startedPrefixTrace ++ pollTrace max_polls ++ [Ev.reportTimeout max_polls]) := by
  constructor
  · decide
  · have hp := pollLoop_done env1000 999 max_polls 0 0 19 (by decide) (by decide)
      (fun j _ => rfl)
      (fun j hj => by
        have h1 : ¬(19 + j = 1018) := by omega
        have h2 : ¬(9 ≤ 19 + j ∧ 19 + j < 17) := by omega
        simp [env1000, mod32, h1, h2, DONE_BIT])
      (by decide)
    rw [cycle_started env1000 (fun m _ => rfl) (by decide), hp]
    simp [max_polls]

set_option maxRecDepth 4000 in
/-- C9 counterexample: in a fully successful run, the register operation
immediately after the successful input readback verification is the
step-5 read of the Status register, not the write of the start bit. -/
theorem next_op_after_verify_is_status_read :
    (test_add_one_operation envGood).1 = 0 ∧
    (test_add_one_operation envGood).2.take 17 = verifiedPrefixTrace ∧
    (test_add_one_operation envGood).2.get? 17 = some (Ev.peek STATUS_REG_ADDR) ∧
    Ev.peek STATUS_REG_ADDR ≠ Ev.poke CONTROL_REG_ADDR START_BIT := by
  refine ⟨by decide, by decide, by decide, by decide⟩

/-- C9 amended: once the readback verification has succeeded (register
calls 0-17 all succeed and the readbacks match), the program performs
exactly one further register operation — the step-5 Status read — before
the start-bit write, which is the next register operation after it. -/
theorem status_read_then_start_write (env : RegEnv)
    (hrc : ∀ m ≤ 17, env.rc m = 0)
    (hrb : ∀ i < NUM_REGISTERS, mod32 (env.val (9 + i)) = test_data i) :
    ∃ rest, (test_add_one_operation env).2 =
      verifiedPrefixTrace ++
        Ev.peek STATUS_REG_ADDR :: Ev.poke CONTROL_REG_ADDR START_BIT :: rest := by
  have h0 : env.rc 0 = 0 := hrc 0 (by omega)
  have h3 : writeInputs env NUM_REGISTERS 0 1 = (.ok 9, inputPokeTrace NUM_REGISTERS 0) := by
    have := writeInputs_ok env NUM_REGISTERS 0 1
      (fun j hj => hrc (1 + j) (by simp [NUM_REGISTERS] at hj; omega))
    simpa using this
  have h4 : verifyInputs env NUM_REGISTERS 0 9 = (.ok 17, inputPeekTrace NUM_REGISTERS 0) := by
    have := verifyInputs_ok env NUM_REGISTERS 0 9
      (fun j hj => hrc (9 + j) (by simp [NUM_REGISTERS] at hj; omega))
      (fun j hj => by simpa using hrb j hj)
    simpa using this
  have h17 : env.rc 17 = 0 := hrc 17 (Nat.le_refl 17)
  by_cases h18 : env.rc 18 = 0
  · rcases hp : pollLoop env max_polls 0 0 19 with ⟨res, tr7⟩
    rcases res with r | ⟨pc, k7⟩
    · exact ⟨tr7, by
        simp [test_add_one_operation, h0, h3, h4, h17, h18, hp, verifiedPrefixTrace]⟩
    · by_cases hpc : pc ≥ max_polls
      · exact ⟨tr7 ++ [Ev.reportTimeout pc], by
          simp [test_add_one_operation, h0, h3, h4, h17, h18, hp, hpc, verifiedPrefixTrace]⟩
      · rcases h8 : stepsAfterPoll env k7 with ⟨r8, tr8⟩
        exact ⟨tr7 ++ tr8, by
          simp [test_add_one_operation, h0, h3, h4, h17, h18, hp, hpc, h8, verifiedPrefixTrace]⟩
  · exact ⟨[], by
      simp [test_add_one_operation, h0, h3, h4, h17, h18, verifiedPrefixTrace]⟩

/-- Witness for `status_read_then_start_write` at `envGood`. -/
theorem status_read_then_start_write_witness :
    ∃ rest, (test_add_one_operation envGood).2 =
      verifiedPrefixTrace ++
        Ev.peek STATUS_REG_ADDR :: Ev.poke CONTROL_REG_ADDR START_BIT :: rest :=
  status_read_then_start_write envGood (fun m _ => rfl) (by decide)

set_option maxRecDepth 4000 in
/-- C1 (failing): the cleanup block of `peek_poke_example` overwrites the
command-cycle rc with the detach rc.  With output slot 3 wrong the cycle
returns 1, yet a successful detach makes `peek_poke_example` return 0;
conversely with a healthy device the cycle returns 0, yet a failing
detach (rc 5) makes `peek_poke_example` return 5. -/
theorem detach_rc_overrides_cycle_rc :
    (test_add_one_operation envSlot3).1 = 1 ∧
    peek_poke_example sysSlot3 = (0, 1) ∧
    (test_add_one_operation envGood).1 = 0 ∧
    peek_poke_example sysDetachFail = (5, 1) := by
  refine ⟨by decide, by decide, by decide, by decide⟩

set_option maxRecDepth 4000 in
/-- C2 (failing): with output slot 3 un-incremented the command cycle
fails (rc 1, summary 7/8 = 87%), yet the successful detach overwrites the
rc and the process exits 0. -/
theorem exit_code_zero_despite_output_mismatch :
    (test_add_one_operation envSlot3).1 = 1 ∧
    Ev.reportSummary 7 87 ∈ (test_add_one_operation envSlot3).2 ∧
    main mainSysSlot3 = 0 := by
  refine ⟨by decide, by decide, by decide⟩

/-- C7: whatever the register environment (and hence whatever the command
cycle does), a successful attach (rc 0, valid handle) leads to exactly
one detach call before `peek_poke_example` returns, and a failed attach
to none. -/
theorem detach_invoked_exactly_once (sys : Sys) :
    (sys.attachRc = 0 → 0 ≤ sys.attachHandle → (peek_poke_example sys).2 = 1) ∧
    (sys.attachRc ≠ 0 → (peek_poke_example sys).2 = 0) := by
  constructor
  · intro h1 h2
    simp [peek_poke_example, h1, h2]
  · intro h1
    simp [peek_poke_example, h1]

/-- Witness for `detach_invoked_exactly_once`: one detach after a
successful attach, none after a failed one. -/
theorem detach_invoked_exactly_once_witness :
    (peek_poke_example sysGood).2 = 1 ∧ (peek_poke_example sysAttachFail).2 = 0 :=
  ⟨(detach_invoked_exactly_once sysGood).1 rfl (by decide),
   (detach_invoked_exactly_once sysAttachFail).2 (by decide)⟩

/-- C8: when the describe call succeeds, `check_afi_ready` returns 0
exactly when the image status is LOADED, and on any other status it
returns 1 and reports that status's name.  (The describe query is issued
exactly once, at function entry — the embedding consumes a single query
and there is no retry.) -/
theorem afi_ready_iff_loaded (q : AfiQuery) (h : q.describeRc = 0) :
    ((check_afi_ready q).1 = 0 ↔ q.status = FpgaStatus.loaded) ∧
    (q.status ≠ FpgaStatus.loaded →
      check_afi_ready q = (1, some (statusName q.status))) := by
  refine ⟨⟨fun h0 => ?_, fun hl => by simp [check_afi_ready, h, hl]⟩,
          fun hne => by simp [check_afi_ready, h, hne]⟩
  by_contra hne
  simp [check_afi_ready, h, hne] at h0

/-- Witness for `afi_ready_iff_loaded`: a BUSY image is reported as
"BUSY" with rc 1, and a LOADED image yields rc 0. -/
theorem afi_ready_iff_loaded_witness :
    check_afi_ready ⟨0, FpgaStatus.busy⟩ = (1, some "BUSY") ∧
    (check_afi_ready ⟨0, FpgaStatus.loaded⟩).1 = 0 :=
  ⟨(afi_ready_iff_loaded ⟨0, FpgaStatus.busy⟩ rfl).2 (by decide),
   (afi_ready_iff_loaded ⟨0, FpgaStatus.loaded⟩ rfl).1.mpr rfl⟩

theorem card_filter_range_eq_iff (n : Nat) (p : Nat → Prop) [DecidablePred p] :
    ((Finset.range n).filter p).card = n ↔ ∀ i < n, p i := by
  constructor
  · intro h i hi
    have hfull : (Finset.range n).filter p = Finset.range n :=
      Finset.eq_of_subset_of_card_le (Finset.filter_subset _ _)
        (by rw [h, Finset.card_range])
    have hmem : i ∈ (Finset.range n).filter p := by
      rw [hfull]; exact Finset.mem_range.mpr hi
    exact (Finset.mem_filter.mp hmem).2
  · intro h
    rw [Finset.filter_eq_self.mpr (fun i hi => h i (Finset.mem_range.mp hi)),
      Finset.card_range]

theorem countCorrect_eq_card (inputs outputs : Nat → Nat) :
    ∀ n, countCorrect inputs outputs n =
      ((Finset.range n).filter (fun i => outputs i = expected32 (inputs i))).card := by
  intro n
  induction n with
  | zero => simp [countCorrect]
  | succ n ih =>
    rw [Finset.range_succ, Finset.filter_insert]
    by_cases h : outputs n = expected32 (inputs n)
    · rw [if_pos h, Finset.card_insert_of_not_mem (by simp)]
      simp [countCorrect, ih, h]
    · rw [if_neg h]
      simp [countCorrect, ih, h]

/-- C5: the step-10 verification succeeds (rc 0) exactly when every slot
`i < NUM_REGISTERS` satisfies `output[i] = (input[i] + 1) mod 2^32`
(wrapping 32-bit addition, so input `0xFFFFFFFF` expects `0`); whatever
the outputs, all `NUM_REGISTERS` slots are compared and the reported
correct count is the number of matching slots. -/
theorem verify_success_iff_all_slots_match :
    (∀ inputs outputs : Nat → Nat,
      ((verifyResults inputs outputs).2.2 = 0 ↔
        ∀ i < NUM_REGISTERS, outputs i = (inputs i + 1) % 2 ^ 32) ∧
      (verifyResults inputs outputs).1 =
        ((Finset.range NUM_REGISTERS).filter
          (fun i => outputs i = (inputs i + 1) % 2 ^ 32)).card) ∧
    expected32 0xFFFFFFFF = 0 := by
  refine ⟨fun inputs outputs => ?_, by decide⟩
  have hcc := countCorrect_eq_card inputs outputs NUM_REGISTERS
  simp only [expected32, mod32] at hcc
  have key : (verifyResults inputs outputs).2.2 = 0 ↔
      countCorrect inputs outputs NUM_REGISTERS = NUM_REGISTERS := by
    unfold verifyResults
    by_cases hc : countCorrect inputs outputs NUM_REGISTERS = NUM_REGISTERS <;> simp [hc]
  refine ⟨?_, ?_⟩
  · rw [key, hcc]
    exact card_filter_range_eq_iff NUM_REGISTERS _
  · exact hcc

/-- Witness for `verify_success_iff_all_slots_match`: an output vector
where every slot is `input + 1` verifies with rc 0, including the
wrapping slot. -/
theorem verify_success_iff_all_slots_match_witness :
    (verifyResults test_data (fun i => expected32 (test_data i))).2.2 = 0 :=
  ((verify_success_iff_all_slots_match.1 test_data
      (fun i => expected32 (test_data i))).1).mpr (by decide)

/-- C10: the accuracy percentage of line 294 is the floor of the exact
rational percentage `correct * 100 / NUM_REGISTERS`; in particular 7
correct slots out of 8 are reported as 87%, not 88%. -/
theorem accuracy_truncates :
    (∀ c : Nat, accuracy c = ⌊((c : ℚ) * 100) / (NUM_REGISTERS : ℚ)⌋₊) ∧
    accuracy 7 = 87 ∧ accuracy 7 ≠ 88 := by
  refine ⟨fun c => ?_, by decide, by decide⟩
  have h : ((c : ℚ) * 100) / (NUM_REGISTERS : ℚ) =
      (((c * 100 : Nat) : ℚ)) / ((NUM_REGISTERS : Nat) : ℚ) := by
    push_cast; ring
  rw [h, Nat.floor_div_nat, Nat.floor_natCast]
  rfl

end CLTopHost
